import Mathlib

/-!
Verification development for the dual-backend storage subsystem of In-Memoria:
a shallow embedding of `QdrantVectorStorage` (embedding generation with tier
fallback, bounded embedding cache, chunked batch upsert, similarity search) and
of `PostgreSQLStorage` (typed upserts over four record kinds, filtered ordered
reads, batched inserts), together with theorems settling the specified
behavioural claims.

Modelling conventions:
- JS strings are modelled as lists of UTF-16 code units (`JsStr := List Nat`);
  JS string truthiness is non-emptiness.
- JS numbers that the code only stores and compares (confidence scores,
  similarity scores, thresholds) are modelled over `Rat`; `Math.sin` is an
  opaque function parameter of the environment, since no claim depends on its
  values.
- A JS `Map` is an insertion-ordered association list: `set` of a fresh key
  appends, `set` of a present key updates in place, iteration order is
  insertion order.
- Fallible operations return `Except`/`Option` errors; `CURRENT_TIMESTAMP` and
  `new Date()` are a `now : Nat` parameter.
-/

namespace InMemoria

/-- JS strings, as lists of UTF-16 code units (`charCodeAt` values). -/
abbrev JsStr := List Nat

/-- JS string truthiness: every string except the empty string is truthy. -/
def jsTruthyStr (s : JsStr) : Bool := !s.isEmpty

/-- Truthiness of an optional string parameter (`undefined` and the empty
string are falsy). -/
def jsTruthyOptStr (s : Option JsStr) : Bool :=
  match s with
  | some v => jsTruthyStr v
  | none => false

/-- An embedding vector (`number[]`), float entries modelled over `Rat`. -/
abbrev Vec := List Rat

/-- Constant `QdrantVectorStorage.EMBEDDING_CACHE_SIZE`. -/
def EMBEDDING_CACHE_SIZE : Nat := 1000

/-- Constant `QdrantVectorStorage.EMBEDDING_DIMENSION` (OpenAI ada-002 dimension). -/
def EMBEDDING_DIMENSION : Nat := 1536

/-- Constant `QdrantVectorStorage.LOCAL_EMBEDDING_DIMENSION` (All-MiniLM-L6-v2). -/
def LOCAL_EMBEDDING_DIMENSION : Nat := 384

/-- JS `x || d` on an optional numeric option: `undefined` and `0` are falsy
and give the default. -/
def jsOrNat (x : Option Nat) (d : Nat) : Nat :=
  match x with
  | some v => if v == 0 then d else v
  | none => d

/-- JS `x || d` for an optional float option, over `Rat`. -/
def jsOrRat (x : Option Rat) (d : Rat) : Rat :=
  match x with
  | some v => if v == 0 then d else v
  | none => d

/-- JS `ToInt32` wrap-around applied by the bitwise operators `<<` and `&`. -/
def toInt32 (n : Int) : Int := (n + 2 ^ 31) % 2 ^ 32 - 2 ^ 31

/-- Method `QdrantVectorStorage.simpleHash`: for each code unit `c`,
`hash = ((hash << 5) - hash) + c` followed by `hash = hash & hash`
(the shift truncates to Int32 and the final `& hash` is `ToInt32`). -/
def simpleHash (s : JsStr) : Int :=
  s.foldl (fun hash c => toInt32 (toInt32 (hash * 32) - hash + c)) 0

/-- Outcome of the remote (OpenAI) tier as observed through the circuit
breaker: a provider error, or the breaker short-circuiting while open. -/
inductive RemoteError
  | providerError
  | circuitOpen
deriving DecidableEq, Repr

/-- The runtime environment of one `QdrantVectorStorage` instance, as fixed by
its constructor and initialization:
`vectorSize = config.vectorSize || EMBEDDING_DIMENSION`; `openai` is the
optional OpenAI client (present iff an API key was configured and the import
succeeded), whose observable behaviour per input text is a vector or an error;
`localPipeline` is the optional local model pipeline (null when its
initialization failed); `mathSin` models `Math.sin` opaquely. -/
structure EmbedEnv where
  vectorSize : Nat
  openai : Option (JsStr → Except RemoteError Vec)
  localPipeline : Option (JsStr → Except Unit Vec)
  mathSin : Int → Rat

/-- The vector size fixed by the constructor:
`this.vectorSize = config.vectorSize || this.EMBEDDING_DIMENSION`. -/
def configVectorSize (configured : Option Nat) : Nat :=
  jsOrNat configured EMBEDDING_DIMENSION

/-- Method `generateFallbackEmbedding`: an array of `LOCAL_EMBEDDING_DIMENSION`
entries, entry `i` being `Math.sin(hash * (i + 1)) * 0.1` (the float scale
`0.1` is modelled as the rational `1 / 10`; no claim depends on its value). -/
def generateFallbackEmbedding (env : EmbedEnv) (text : JsStr) : Vec :=
  (List.range LOCAL_EMBEDDING_DIMENSION).map fun i : Nat =>
    env.mathSin (simpleHash text * ((i : Int) + 1)) * (1 / 10)

/-- Method `generateLocalEmbedding`: use the local pipeline when it is loaded, with
any pipeline error caught and downgraded to the hash fallback; without a
pipeline, go directly to the hash fallback. Never throws. -/
def generateLocalEmbedding (env : EmbedEnv) (text : JsStr) : Vec :=
  match env.localPipeline with
  | some pipe =>
      match pipe text with
      | .ok v => v
      | .error _ => generateFallbackEmbedding env text
  | none => generateFallbackEmbedding env text

/-- The embedding cache: a JS `Map<string, number[]>` as an insertion-ordered
association list. -/
abbrev EmbedCache := List (JsStr × Vec)

/-- Operation `Map.has`. -/
def mapHas (m : EmbedCache) (k : JsStr) : Bool := m.any fun p => p.1 == k

/-- Operation `Map.get(k)!` (the code asserts presence after `has`); absent gives the
JS-undefined stand-in `[]`. -/
def mapGetD (m : EmbedCache) (k : JsStr) : Vec :=
  match m.find? (fun p => p.1 == k) with
  | some p => p.2
  | none => []

/-- Operation `Map.set`: update in place when the key is present, append otherwise. -/
def mapSet (m : EmbedCache) (k : JsStr) (v : Vec) : EmbedCache :=
  if mapHas m k then m.map (fun p => if p.1 == k then (k, v) else p)
  else m ++ [(k, v)]

/-- Operation `Map.delete`: remove the entry with the given key. -/
def mapDelete (m : EmbedCache) (k : JsStr) : EmbedCache :=
  m.filter fun p => !(p.1 == k)

/-- Expression `Map.keys().next().value`: the first-inserted key, if any. -/
def firstKey (m : EmbedCache) : Option JsStr := m.head?.map (·.1)

/-- The caching step of `generateEmbedding` (lines guarding
`EMBEDDING_CACHE_SIZE`): when the cache is at or above capacity, read the
first-inserted key and delete it if truthy (`if (firstKey)`), then `set` the
new entry. -/
def cachePut (m : EmbedCache) (k : JsStr) (v : Vec) : EmbedCache :=
  let m' :=
    if EMBEDDING_CACHE_SIZE ≤ m.length then
      match firstKey m with
      | some fk => if jsTruthyStr fk then mapDelete m fk else m
      | none => m
    else m
  mapSet m' k v

/-- The zero vector `new Array(n).fill(0)`. -/
def zeroVec (n : Nat) : Vec := List.replicate n 0

/-- The body of the `try` block of `generateEmbedding` after the cache miss:
when an OpenAI client is present, call it through the circuit breaker (the
breaker's short-circuit and any provider failure surface as an error);
otherwise compute a local embedding (which never fails). On success the result
is cached via `cachePut`. -/
def tryGenerateAndCache (env : EmbedEnv) (cache : EmbedCache) (text : JsStr) :
    Except RemoteError (Vec × EmbedCache) :=
  match env.openai with
  | some remote =>
      match remote text with
      | .ok embedding => .ok (embedding, cachePut cache text embedding)
      | .error e => .error e
  | none =>
      let embedding := generateLocalEmbedding env text
      .ok (embedding, cachePut cache text embedding)

/-- Method `generateEmbedding`: return the cached vector on a hit; otherwise run the
try block, and on any error return the zero vector of `vectorSize` (the catch
branch), leaving the cache unchanged. -/
def generateEmbedding (env : EmbedEnv) (cache : EmbedCache) (text : JsStr) :
    Vec × EmbedCache :=
  if mapHas cache text then (mapGetD cache text, cache)
  else
    match tryGenerateAndCache env cache text with
    | .ok res => res
    | .error _ => (zeroVec env.vectorSize, cache)

/-! ### Qdrant client model: points, batch upsert, search -/

/-- Interface record `CodeMetadata` (from `IVectorStorage`). -/
structure CodeMetadata where
  id : JsStr
  filePath : JsStr
  functionName : Option JsStr
  className : Option JsStr
  language : JsStr
  complexity : Rat
  lineCount : Nat
  lastModified : Nat
deriving DecidableEq, Repr

/-- The payload of a `QdrantPoint` (`content`, `metadata`, `created`,
`updated`; the ISO timestamp strings are modelled as `Nat` instants). -/
structure QdrantPayload where
  content : JsStr
  metadata : CodeMetadata
  created : Nat
  updated : Nat
deriving DecidableEq, Repr

/-- A `QdrantPoint` as sent to `PUT /collections/{name}/points`. -/
structure QdrantPoint where
  id : JsStr
  vector : Vec
  payload : QdrantPayload
deriving DecidableEq, Repr

/-- Observable state of the remote Qdrant collection: the persisted points and
the log of every upsert request body the backend has received (successful or
not), in order. -/
structure QdrantState where
  points : List QdrantPoint
  requestLog : List (List QdrantPoint)
deriving DecidableEq, Repr

/-- Modelled from the spec: the wire contract of
`PUT /collections/{name}/points` upserts each point keyed by its `id`
(last-write-wins per key). One point. -/
def upsertPoint (pts : List QdrantPoint) (p : QdrantPoint) : List QdrantPoint :=
  if pts.any (fun q => q.id == p.id) then
    pts.map fun q => if q.id == p.id then p else q
  else pts ++ [p]

/-- Modelled from the spec: upsert of a whole request body, point by point. -/
def upsertPoints (pts : List QdrantPoint) (batch : List QdrantPoint) :
    List QdrantPoint :=
  batch.foldl upsertPoint pts

/-- Errors surfaced by the vector store client: the explicit
"not initialized" error, the batch length-mismatch validation error, and a
failed HTTP request (`makeRequest` throws on any non-ok response). -/
inductive VectorStoreError
  | notInitialized
  | lengthMismatch
  | httpError
deriving DecidableEq, Repr

/-- Modelled from the spec: one `PUT .../points` request against the remote
backend. The backend's availability is the parameter `ok`: request number `n`
(numbered by the requests received before it) succeeds iff `ok n`. The request
is logged in either case; only a successful request persists its points. -/
def putPointsRequest (ok : Nat → Bool) (s : QdrantState)
    (batch : List QdrantPoint) : Option VectorStoreError × QdrantState :=
  let n := s.requestLog.length
  let logged : QdrantState := { s with requestLog := s.requestLog ++ [batch] }
  if ok n then (none, { logged with points := upsertPoints logged.points batch })
  else (some .httpError, logged)

/-- The batching loop of `storeMultipleEmbeddings`:
`for (let i = 0; i < points.length; i += batchSize) points.slice(i, i + 100)`,
as the list of consecutive chunks of (up to) 100 points. -/
def chunks100 : List QdrantPoint → List (List QdrantPoint)
  | [] => []
  | p :: ps => ((p :: ps).take 100) :: chunks100 ((p :: ps).drop 100)
termination_by l => l.length
decreasing_by simp [List.length_drop]; omega

/-- Sequential dispatch of the prepared chunks: each chunk is sent with
`await makeRequest`; the first failing request throws, so no later chunk is
attempted, and chunks already acknowledged stay persisted. -/
def sendChunks (ok : Nat → Bool) :
    List (List QdrantPoint) → QdrantState → Option VectorStoreError × QdrantState
  | [], s => (none, s)
  | b :: bs, s =>
      match putPointsRequest ok s b with
      | (none, s') => sendChunks ok bs s'
      | (some e, s') => (some e, s')

/-- The embedding phase of `storeMultipleEmbeddings`: for each index, generate
the embedding (threading the cache) and build the point and its id. The two
input lists have equal length when this runs (validated by the caller), so the
paired recursion matches the indexed loop. The progress callback has no
observable storage effect and is not modelled. -/
def buildPoints (env : EmbedEnv) (now : Nat) :
    List JsStr → List CodeMetadata → EmbedCache →
    List QdrantPoint × List JsStr × EmbedCache
  | [], _, cache => ([], [], cache)
  | _, [], cache => ([], [], cache)
  | code :: codes, m :: ms, cache =>
      let r := generateEmbedding env cache code
      let p : QdrantPoint :=
        { id := m.id, vector := r.1
          payload := { content := code, metadata := m, created := now, updated := now } }
      let rest := buildPoints env now codes ms r.2
      (p :: rest.1, m.id :: rest.2.1, rest.2.2)

/-- Method `storeMultipleEmbeddings`: require initialization, then validate equal
array lengths, then embed every chunk building the points and ids, then send
the points in batches of 100. Returns the ids on success; any failure is the
thrown error. The resulting cache and backend state are returned alongside. -/
def storeMultipleEmbeddings (env : EmbedEnv) (ok : Nat → Bool)
    (initialized : Bool) (now : Nat)
    (codeChunks : List JsStr) (metadataList : List CodeMetadata)
    (cache : EmbedCache) (s : QdrantState) :
    Except VectorStoreError (List JsStr) × EmbedCache × QdrantState :=
  if !initialized then (.error .notInitialized, cache, s)
  else if codeChunks.length != metadataList.length then
    (.error .lengthMismatch, cache, s)
  else
    let built := buildPoints env now codeChunks metadataList cache
    match sendChunks ok (chunks100 built.1) s with
    | (none, s') => (.ok built.2.1, built.2.2, s')
    | (some e, s') => (.error e, built.2.2, s')

/-! ### Search -/

/-- Interface record `SearchOptions` (both fields optional). -/
structure SearchOptions where
  limit : Option Nat := none
  threshold : Option Rat := none
deriving DecidableEq, Repr

/-- The search request body built by `searchByEmbedding`:
`{ vector, limit: options.limit || 10, score_threshold: options.threshold || 0.7,
with_payload: true }` (the float default `0.7` is the rational `7 / 10`). -/
structure SearchRequest where
  vector : Vec
  limit : Nat
  scoreThreshold : Rat
  withPayload : Bool
deriving DecidableEq, Repr

/-- Construction of the search request from the supplied options. -/
def searchRequestOf (embedding : Vec) (options : SearchOptions) : SearchRequest :=
  { vector := embedding
    limit := jsOrNat options.limit 10
    scoreThreshold := jsOrRat options.threshold (7 / 10)
    withPayload := true }

/-- One entry of the backend's search response (`QdrantSearchResult`). -/
structure QdrantHit where
  id : JsStr
  score : Rat
  payload : QdrantPayload
deriving DecidableEq, Repr

/-- Interface record `SemanticSearchResult`. -/
structure SemanticSearchResult where
  id : JsStr
  code : JsStr
  metadata : CodeMetadata
  similarity : Rat
deriving DecidableEq, Repr

/-- Modelled from the spec: the wire contract of
`POST /collections/{name}/points/search` — the response holds only matches
scoring at or above the requested `score_threshold`, ordered by similarity
score descending, with at most `limit` entries. The backend is a parameter;
this predicate is the hypothesis the remote index fulfills. -/
def SearchBackendContract (backend : SearchRequest → List QdrantHit) : Prop :=
  ∀ req : SearchRequest,
    (∀ h ∈ backend req, req.scoreThreshold ≤ h.score) ∧
    List.Pairwise (fun a b : QdrantHit => b.score ≤ a.score) (backend req) ∧
    (backend req).length ≤ req.limit

/-- Method `searchByEmbedding`: require initialization, build the request, send it,
and map each response entry to a `SemanticSearchResult`, copying the backend's
score unchanged into `similarity`. -/
def searchByEmbedding (backend : SearchRequest → List QdrantHit)
    (initialized : Bool) (embedding : Vec) (options : SearchOptions) :
    Except VectorStoreError (List SemanticSearchResult) :=
  if !initialized then .error .notInitialized
  else
    .ok ((backend (searchRequestOf embedding options)).map fun r =>
      { id := r.id, code := r.payload.content
        metadata := r.payload.metadata, similarity := r.score })

/-! ### PostgreSQL relational model

Each table is a list of rows. `CURRENT_TIMESTAMP` is the `now : Nat` argument.
The JSON-valued columns carry the `JSON.stringify` serialization of the input
field, modelled as the opaque serialized string itself. Nullable inputs are
`Option`; the schema's `NOT NULL` columns reject a null with an SQL error. -/

/-- SQL errors relevant to these operations: a `NOT NULL` constraint violation
and a duplicate-key (primary key) violation. -/
inductive SqlError
  | notNullViolation
  | duplicateKey
deriving DecidableEq, Repr

/-- A row of `semantic_concepts` (`id` is the primary key; `concept_name` and
`concept_type` are `NOT NULL`). -/
structure SemanticConceptRow where
  id : JsStr
  conceptName : JsStr
  conceptType : JsStr
  confidenceScore : Rat
  relationships : JsStr
  evolutionHistory : JsStr
  filePath : JsStr
  lineRange : JsStr
  createdAt : Nat
  updatedAt : Nat
deriving DecidableEq, Repr

/-- The argument of `insertSemanticConcept` (record without the
store-maintained timestamps). `conceptName`/`conceptType` are optional to
model a JS null/undefined reaching a `NOT NULL` column. -/
structure SemanticConceptInsert where
  id : JsStr
  conceptName : Option JsStr
  conceptType : Option JsStr
  confidenceScore : Rat
  relationships : JsStr
  evolutionHistory : JsStr
  filePath : JsStr
  lineRange : JsStr
deriving DecidableEq, Repr

/-- Method `insertSemanticConcept`:
`INSERT ... ON CONFLICT (id) DO UPDATE SET <all non-identity columns>,
updated_at = CURRENT_TIMESTAMP`. A conflicting id updates the existing row in
place (preserving `created_at`); a fresh id appends a new row with both
timestamps set to now. -/
def insertSemanticConcept (now : Nat) (c : SemanticConceptInsert)
    (t : List SemanticConceptRow) : Except SqlError (List SemanticConceptRow) :=
  match c.conceptName, c.conceptType with
  | some cname, some ctype =>
      if t.any (fun r => r.id == c.id) then
        .ok (t.map fun r =>
          if r.id == c.id then
            { r with conceptName := cname, conceptType := ctype
                     confidenceScore := c.confidenceScore
                     relationships := c.relationships
                     evolutionHistory := c.evolutionHistory
                     filePath := c.filePath, lineRange := c.lineRange
                     updatedAt := now }
          else r)
      else
        .ok (t ++ [{ id := c.id, conceptName := cname, conceptType := ctype
                     confidenceScore := c.confidenceScore
                     relationships := c.relationships
                     evolutionHistory := c.evolutionHistory
                     filePath := c.filePath, lineRange := c.lineRange
                     createdAt := now, updatedAt := now }])
  | _, _ => .error .notNullViolation

/-- A row of `developer_patterns` (`pattern_id` PK; `pattern_type` and
`pattern_content` are `NOT NULL`). -/
structure DeveloperPatternRow where
  patternId : JsStr
  patternType : JsStr
  patternContent : JsStr
  frequency : Int
  contexts : JsStr
  examples : JsStr
  confidence : Rat
  createdAt : Nat
  lastSeen : Nat
deriving DecidableEq, Repr

/-- The argument of `insertDeveloperPattern`. -/
structure DeveloperPatternInsert where
  patternId : JsStr
  patternType : Option JsStr
  patternContent : JsStr
  frequency : Int
  contexts : JsStr
  examples : JsStr
  confidence : Rat
deriving DecidableEq, Repr

/-- Method `insertDeveloperPattern`:
`INSERT ... ON CONFLICT (pattern_id) DO UPDATE SET <non-identity columns>,
last_seen = CURRENT_TIMESTAMP`. -/
def insertDeveloperPattern (now : Nat) (p : DeveloperPatternInsert)
    (t : List DeveloperPatternRow) : Except SqlError (List DeveloperPatternRow) :=
  match p.patternType with
  | some ptype =>
      if t.any (fun r => r.patternId == p.patternId) then
        .ok (t.map fun r =>
          if r.patternId == p.patternId then
            { r with patternType := ptype, patternContent := p.patternContent
                     frequency := p.frequency, contexts := p.contexts
                     examples := p.examples, confidence := p.confidence
                     lastSeen := now }
          else r)
      else
        .ok (t ++ [{ patternId := p.patternId, patternType := ptype
                     patternContent := p.patternContent
                     frequency := p.frequency, contexts := p.contexts
                     examples := p.examples, confidence := p.confidence
                     createdAt := now, lastSeen := now }])
  | none => .error .notNullViolation

/-- A row of `file_intelligence` (`file_path` PK; `last_analyzed` is supplied
by the caller, not a server clock). -/
structure FileIntelligenceRow where
  filePath : JsStr
  fileHash : JsStr
  semanticConcepts : JsStr
  patternsUsed : JsStr
  complexityMetrics : JsStr
  dependencies : JsStr
  lastAnalyzed : Nat
  createdAt : Nat
deriving DecidableEq, Repr

/-- The argument of `insertFileIntelligence`. -/
structure FileIntelligenceInsert where
  filePath : JsStr
  fileHash : JsStr
  semanticConcepts : JsStr
  patternsUsed : JsStr
  complexityMetrics : JsStr
  dependencies : JsStr
  lastAnalyzed : Nat
deriving DecidableEq, Repr

/-- Method `insertFileIntelligence`:
`INSERT ... ON CONFLICT (file_path) DO UPDATE SET <non-identity columns>,
last_analyzed = EXCLUDED.last_analyzed` — the mutation timestamp is the
supplied `lastAnalyzed` value, and `created_at` is preserved. -/
def insertFileIntelligence (now : Nat) (f : FileIntelligenceInsert)
    (t : List FileIntelligenceRow) : Except SqlError (List FileIntelligenceRow) :=
  if t.any (fun r => r.filePath == f.filePath) then
    .ok (t.map fun r =>
      if r.filePath == f.filePath then
        { r with fileHash := f.fileHash, semanticConcepts := f.semanticConcepts
                 patternsUsed := f.patternsUsed
                 complexityMetrics := f.complexityMetrics
                 dependencies := f.dependencies, lastAnalyzed := f.lastAnalyzed }
      else r)
  else
    .ok (t ++ [{ filePath := f.filePath, fileHash := f.fileHash
                 semanticConcepts := f.semanticConcepts
                 patternsUsed := f.patternsUsed
                 complexityMetrics := f.complexityMetrics
                 dependencies := f.dependencies
                 lastAnalyzed := f.lastAnalyzed, createdAt := now }])

/-- A row of `ai_insights` (`insight_id` PK). -/
structure AIInsightRow where
  insightId : JsStr
  insightType : JsStr
  insightContent : JsStr
  confidenceScore : Rat
  sourceAgent : JsStr
  validationStatus : JsStr
  impactPrediction : JsStr
  createdAt : Nat
deriving DecidableEq, Repr

/-- The argument of `insertAIInsight`. -/
structure AIInsightInsert where
  insightId : JsStr
  insightType : JsStr
  insightContent : JsStr
  confidenceScore : Rat
  sourceAgent : JsStr
  validationStatus : JsStr
  impactPrediction : JsStr
deriving DecidableEq, Repr

/-- Method `insertAIInsight`: a plain `INSERT INTO ai_insights (...) VALUES (...)`
with no `ON CONFLICT` clause — a second insert under an existing `insight_id`
violates the primary key and raises a duplicate-key error. -/
def insertAIInsight (now : Nat) (a : AIInsightInsert)
    (t : List AIInsightRow) : Except SqlError (List AIInsightRow) :=
  if t.any (fun r => r.insightId == a.insightId) then .error .duplicateKey
  else
    .ok (t ++ [{ insightId := a.insightId, insightType := a.insightType
                 insightContent := a.insightContent
                 confidenceScore := a.confidenceScore
                 sourceAgent := a.sourceAgent
                 validationStatus := a.validationStatus
                 impactPrediction := a.impactPrediction, createdAt := now }])

/-! ### Filtered, ordered reads

`SELECT *` with an optional `WHERE` (guarded by JS truthiness of the filter
argument) followed by an `ORDER BY`. An `ORDER BY` result is a sorted
permutation of the selected rows; it is modelled with `List.insertionSort`
under the corresponding descending key order. The source then maps each row to its
record 1-1 in order (renaming columns and `JSON.parse`-ing the JSON columns,
which this model carries opaquely), so the record lists below expose exactly
the database order and timestamps. -/

/-- Method `getSemanticConcepts(filePath?)`:
optional `WHERE file_path = $1`, then `ORDER BY created_at DESC`. -/
def getSemanticConcepts (filePath : Option JsStr)
    (t : List SemanticConceptRow) : List SemanticConceptRow :=
  let selected :=
    if jsTruthyOptStr filePath then
      t.filter fun r => r.filePath == filePath.getD []
    else t
  selected.insertionSort fun a b => b.createdAt ≤ a.createdAt

/-- Method `getDeveloperPatterns(patternType?)`:
optional `WHERE pattern_type = $1`, then
`ORDER BY frequency DESC, last_seen DESC`. -/
def getDeveloperPatterns (patternType : Option JsStr)
    (t : List DeveloperPatternRow) : List DeveloperPatternRow :=
  let selected :=
    if jsTruthyOptStr patternType then
      t.filter fun r => r.patternType == patternType.getD []
    else t
  selected.insertionSort fun a b =>
    b.frequency < a.frequency ∨ (a.frequency = b.frequency ∧ b.lastSeen ≤ a.lastSeen)

/-- Method `getAIInsights(insightType?)`:
optional `WHERE insight_type = $1`, then `ORDER BY created_at DESC`. -/
def getAIInsights (insightType : Option JsStr)
    (t : List AIInsightRow) : List AIInsightRow :=
  let selected :=
    if jsTruthyOptStr insightType then
      t.filter fun r => r.insightType == insightType.getD []
    else t
  selected.insertionSort fun a b => b.createdAt ≤ a.createdAt

/-! ### Connections, transactions and the batch inserts

`this.pool.query(sql)` hands the statement to an arbitrary pooled connection
in autocommit mode: its effect is committed immediately. `this.pool.connect()`
returns a dedicated connection; after `client.query('BEGIN')`, writes issued
through `client.query` are buffered in that connection's transaction and
published at `COMMIT` / discarded at `ROLLBACK`. Writes of other connections
are unaffected by that transaction.

The batch methods open a transaction on the dedicated `client` but perform
each item insert via `this.insertSemanticConcept` / `this.insertDeveloperPattern`,
which use `this.pool.query` — autocommit connections outside the transaction.
The dedicated client therefore never buffers any write. -/

/-- All four tables of the store. -/
structure PgTables where
  semanticConcepts : List SemanticConceptRow
  developerPatterns : List DeveloperPatternRow
  fileIntelligence : List FileIntelligenceRow
  aiInsights : List AIInsightRow
deriving DecidableEq, Repr

/-- A row-level write as buffered by an open transaction (the write set a
statement issued through `client.query` would add). -/
inductive ClientWrite
  | putSemanticConcept (r : SemanticConceptRow)
  | putDeveloperPattern (r : DeveloperPatternRow)
  | putFileIntelligence (r : FileIntelligenceRow)
  | putAIInsight (r : AIInsightRow)
deriving DecidableEq, Repr

/-- Publishing one buffered write at `COMMIT`. -/
def applyClientWrite (t : PgTables) : ClientWrite → PgTables
  | .putSemanticConcept r =>
      { t with semanticConcepts :=
          if t.semanticConcepts.any (fun q => q.id == r.id) then
            t.semanticConcepts.map fun q => if q.id == r.id then r else q
          else t.semanticConcepts ++ [r] }
  | .putDeveloperPattern r =>
      { t with developerPatterns :=
          if t.developerPatterns.any (fun q => q.patternId == r.patternId) then
            t.developerPatterns.map fun q => if q.patternId == r.patternId then r else q
          else t.developerPatterns ++ [r] }
  | .putFileIntelligence r =>
      { t with fileIntelligence :=
          if t.fileIntelligence.any (fun q => q.filePath == r.filePath) then
            t.fileIntelligence.map fun q => if q.filePath == r.filePath then r else q
          else t.fileIntelligence ++ [r] }
  | .putAIInsight r => { t with aiInsights := t.aiInsights ++ [r] }

/-- State of the PostgreSQL backend: the committed tables, plus the write
buffer of the dedicated client's transaction when one is open. -/
structure PgState where
  committed : PgTables
  clientTxn : Option (List ClientWrite)
deriving DecidableEq, Repr

/-- Statement `client.query('BEGIN')`: open a transaction with an empty write set. -/
def clientBegin (s : PgState) : PgState := { s with clientTxn := some [] }

/-- Statement `client.query('COMMIT')`: publish the transaction's buffered writes. -/
def clientCommit (s : PgState) : PgState :=
  match s.clientTxn with
  | some ws => { committed := ws.foldl applyClientWrite s.committed, clientTxn := none }
  | none => s

/-- Statement `client.query('ROLLBACK')`: discard the transaction's buffered writes. -/
def clientRollback (s : PgState) : PgState := { s with clientTxn := none }

/-- Call `this.insertSemanticConcept` as invoked inside the batch: an autocommit
statement through `this.pool.query`, applied directly to the committed
tables. -/
def poolInsertSemanticConcept (now : Nat) (c : SemanticConceptInsert)
    (s : PgState) : Except SqlError PgState :=
  match insertSemanticConcept now c s.committed.semanticConcepts with
  | .ok t => .ok { s with committed := { s.committed with semanticConcepts := t } }
  | .error e => .error e

/-- Call `this.insertDeveloperPattern` via `this.pool.query`, autocommit. -/
def poolInsertDeveloperPattern (now : Nat) (p : DeveloperPatternInsert)
    (s : PgState) : Except SqlError PgState :=
  match insertDeveloperPattern now p s.committed.developerPatterns with
  | .ok t => .ok { s with committed := { s.committed with developerPatterns := t } }
  | .error e => .error e

/-- The item loop of `insertSemanticConceptsBatch`: insert each concept via
the pool; on success of all, `COMMIT` on the client; on the first failure,
`ROLLBACK` on the client and rethrow the error. -/
def scBatchLoop (now : Nat) :
    List SemanticConceptInsert → PgState → Option SqlError × PgState
  | [], s => (none, clientCommit s)
  | c :: cs, s =>
      match poolInsertSemanticConcept now c s with
      | .ok s' => scBatchLoop now cs s'
      | .error e => (some e, clientRollback s)

/-- Method `insertSemanticConceptsBatch`: empty batches return immediately;
otherwise acquire the dedicated client, `BEGIN`, run the item loop. -/
def insertSemanticConceptsBatch (now : Nat)
    (concepts : List SemanticConceptInsert) (s : PgState) :
    Option SqlError × PgState :=
  if concepts.isEmpty then (none, s)
  else scBatchLoop now concepts (clientBegin s)

/-- The item loop of `insertDeveloperPatternsBatch`. -/
def dpBatchLoop (now : Nat) :
    List DeveloperPatternInsert → PgState → Option SqlError × PgState
  | [], s => (none, clientCommit s)
  | p :: ps, s =>
      match poolInsertDeveloperPattern now p s with
      | .ok s' => dpBatchLoop now ps s'
      | .error e => (some e, clientRollback s)

/-- Method `insertDeveloperPatternsBatch`. -/
def insertDeveloperPatternsBatch (now : Nat)
    (patterns : List DeveloperPatternInsert) (s : PgState) :
    Option SqlError × PgState :=
  if patterns.isEmpty then (none, s)
  else dpBatchLoop now patterns (clientBegin s)

/-! ### Row abbreviations and concrete example data for the theorems -/

/-- The `semantic_concepts` row written for insert argument `c` whose
`NOT NULL` columns resolved to `cname`/`ctype`, with the given timestamps. -/
def scRowOf (cname ctype : JsStr) (c : SemanticConceptInsert)
    (cAt uAt : Nat) : SemanticConceptRow :=
  { id := c.id, conceptName := cname, conceptType := ctype
    confidenceScore := c.confidenceScore, relationships := c.relationships
    evolutionHistory := c.evolutionHistory, filePath := c.filePath
    lineRange := c.lineRange, createdAt := cAt, updatedAt := uAt }

/-- The `developer_patterns` row for insert argument `p`. -/
def dpRowOf (ptype : JsStr) (p : DeveloperPatternInsert)
    (cAt ls : Nat) : DeveloperPatternRow :=
  { patternId := p.patternId, patternType := ptype
    patternContent := p.patternContent, frequency := p.frequency
    contexts := p.contexts, examples := p.examples, confidence := p.confidence
    createdAt := cAt, lastSeen := ls }

/-- The `file_intelligence` row for insert argument `f`. -/
def fiRowOf (f : FileIntelligenceInsert) (cAt : Nat) : FileIntelligenceRow :=
  { filePath := f.filePath, fileHash := f.fileHash
    semanticConcepts := f.semanticConcepts, patternsUsed := f.patternsUsed
    complexityMetrics := f.complexityMetrics, dependencies := f.dependencies
    lastAnalyzed := f.lastAnalyzed, createdAt := cAt }

/-- The `ai_insights` row for insert argument `a`. -/
def aiRowOf (a : AIInsightInsert) (cAt : Nat) : AIInsightRow :=
  { insightId := a.insightId, insightType := a.insightType
    insightContent := a.insightContent, confidenceScore := a.confidenceScore
    sourceAgent := a.sourceAgent, validationStatus := a.validationStatus
    impactPrediction := a.impactPrediction, createdAt := cAt }

/-- An environment with the constructor's default vector size and neither a
remote client nor a local pipeline: only the hash fallback tier is live. -/
def envFallbackOnly : EmbedEnv :=
  { vectorSize := configVectorSize none, openai := none
    localPipeline := none, mathSin := fun _ => 0 }

/-- An environment whose remote tier always fails with the breaker open while
a loaded local pipeline would succeed with the vector `[1]`. -/
def envRemoteDownLocalUp : EmbedEnv :=
  { vectorSize := 3, openai := some fun _ => .error .circuitOpen
    localPipeline := some fun _ => .ok [1], mathSin := fun _ => 0 }

/-- An environment whose remote tier always answers with the vector `[1]`. -/
def envRemoteOk : EmbedEnv :=
  { vectorSize := 3, openai := some fun _ => .ok [1]
    localPipeline := none, mathSin := fun _ => 0 }

/-- Example metadata record. -/
def mdExample : CodeMetadata :=
  { id := [11], filePath := [47, 97], functionName := none, className := none
    language := [116, 115], complexity := 1, lineCount := 10, lastModified := 0 }

/-- A second example metadata record with a distinct id. -/
def mdExample2 : CodeMetadata := { mdExample with id := [12] }

/-- The initial, empty backend collection. -/
def qdrantEmpty : QdrantState := { points := [], requestLog := [] }

/-- Example semantic concept insert. -/
def scExampleA : SemanticConceptInsert :=
  { id := [1], conceptName := some [65], conceptType := some [84]
    confidenceScore := 1, relationships := [123, 125]
    evolutionHistory := [123, 125], filePath := [47, 97], lineRange := [48] }

/-- A second semantic concept insert under the same id with different
non-identity fields. -/
def scExampleB : SemanticConceptInsert :=
  { scExampleA with conceptName := some [66], confidenceScore := 2 }

/-- Example developer pattern insert. -/
def dpExampleA : DeveloperPatternInsert :=
  { patternId := [2], patternType := some [80], patternContent := [123, 125]
    frequency := 3, contexts := [91, 93], examples := [91, 93]
    confidence := 1 }

/-- A second developer pattern insert under the same pattern id. -/
def dpExampleB : DeveloperPatternInsert :=
  { dpExampleA with patternType := some [81], frequency := 7 }

/-- Example file intelligence insert. -/
def fiExampleA : FileIntelligenceInsert :=
  { filePath := [47, 98], fileHash := [100], semanticConcepts := [91, 93]
    patternsUsed := [91, 93], complexityMetrics := [123, 125]
    dependencies := [91, 93], lastAnalyzed := 5 }

/-- A second file intelligence insert under the same file path. -/
def fiExampleB : FileIntelligenceInsert :=
  { fiExampleA with fileHash := [101], lastAnalyzed := 9 }

/-- Example AI insight insert. -/
def aiExample : AIInsightInsert :=
  { insightId := [3], insightType := [73], insightContent := [123, 125]
    confidenceScore := 2, sourceAgent := [97, 103]
    validationStatus := [112], impactPrediction := [123, 125] }

/-! ### General helper lemmas -/

/-- Mapping a guarded update over a list touches nothing when no element
satisfies the guard. -/
theorem map_ite_eq_self {α : Type} (l : List α) (p : α → Bool) (f : α → α)
    (h : l.any p = false) : (l.map fun x => if p x then f x else x) = l := by
  induction l with
  | nil => rfl
  | cons a l ih =>
      rw [List.any_cons, Bool.or_eq_false_iff] at h
      simp only [List.map_cons, h.1, ih h.2]
      simp

/-!  ### C10 -/

/-- C10: passing `limit: 0` or `threshold: 0` in the search options makes
`searchByEmbedding` silently substitute the defaults (limit 10, score
threshold 0.7), because falsy option values are replaced by defaults; an
explicit zero threshold cannot request unfiltered results. -/
theorem c10_falsy_search_options_become_defaults
    (backend : SearchRequest → List QdrantHit) (embedding : Vec)
    (l : Option Nat) (q : Option Rat) :
    searchRequestOf embedding { limit := some 0, threshold := q } =
      searchRequestOf embedding { limit := none, threshold := q } ∧
    searchRequestOf embedding { limit := l, threshold := some 0 } =
      searchRequestOf embedding { limit := l, threshold := none } ∧
    (searchRequestOf embedding { limit := some 0, threshold := some 0 }).limit = 10 ∧
    (searchRequestOf embedding { limit := some 0, threshold := some 0 }).scoreThreshold = 7 / 10 ∧
    searchByEmbedding backend true embedding { limit := some 0, threshold := some 0 } =
      searchByEmbedding backend true embedding {} := by
  refine ⟨?_, ?_, ?_, ?_, ?_⟩ <;>
    simp [searchRequestOf, searchByEmbedding, jsOrNat, jsOrRat]

/-! ### C8 -/

/-- C8: with the store initialized, a batch call whose input arrays have
different lengths is rejected with the validation error before any embedding
generation (the cache is untouched) and before any network I/O (the backend
received no request and its points are unchanged). -/
theorem c8_length_mismatch_rejected_before_work
    (env : EmbedEnv) (ok : Nat → Bool) (now : Nat)
    (codeChunks : List JsStr) (metadataList : List CodeMetadata)
    (cache : EmbedCache) (s : QdrantState)
    (hlen : codeChunks.length ≠ metadataList.length) :
    storeMultipleEmbeddings env ok true now codeChunks metadataList cache s =
      (.error .lengthMismatch, cache, s) := by
  simp [storeMultipleEmbeddings, hlen]

/-- Witness for C8 at a concrete mismatched pair (one code chunk, no
metadata). -/
theorem c8_length_mismatch_rejected_before_work_witness :
    storeMultipleEmbeddings envRemoteOk (fun _ => true) true 0
        [[5]] [] [] qdrantEmpty =
      (.error .lengthMismatch, [], qdrantEmpty) :=
  c8_length_mismatch_rejected_before_work envRemoteOk (fun _ => true) 0
    [[5]] [] [] qdrantEmpty (by decide)

/-! ### C3 -/

/-- C3 counterexample: with the constructor's default configuration
(`vectorSize` 1536) and both the remote and local tiers unavailable, the
hash-fallback result of `generateEmbedding` has length 384, not the configured
dimensionality. -/
theorem c3_counterexample :
    envFallbackOnly.vectorSize = 1536 ∧
    (generateEmbedding envFallbackOnly [] [104, 105]).1.length = 384 ∧
    (384 : Nat) ≠ 1536 := by
  refine ⟨rfl, ?_, by decide⟩
  show (generateFallbackEmbedding envFallbackOnly [104, 105]).length = 384
  rw [generateFallbackEmbedding, List.length_map, List.length_range]
  rfl

/-- C3 amended: on a cache miss with the remote provider and the local
pipeline both unavailable, `generateEmbedding` returns exactly the
deterministic hash-fallback vector, whose length is the fixed
`LOCAL_EMBEDDING_DIMENSION` (384); this equals the configured `vectorSize`
only when the latter is configured to 384. -/
theorem c3_fallback_embedding_dimension
    (env : EmbedEnv) (cache : EmbedCache) (text : JsStr)
    (hremote : env.openai = none) (hlocal : env.localPipeline = none)
    (hmiss : mapHas cache text = false) :
    (generateEmbedding env cache text).1 = generateFallbackEmbedding env text ∧
    (generateEmbedding env cache text).1.length = LOCAL_EMBEDDING_DIMENSION ∧
    ((generateEmbedding env cache text).1.length = env.vectorSize ↔
      env.vectorSize = LOCAL_EMBEDDING_DIMENSION) := by
  have hgen : (generateEmbedding env cache text).1 = generateFallbackEmbedding env text := by
    simp [generateEmbedding, hmiss, tryGenerateAndCache, hremote,
      generateLocalEmbedding, hlocal]
  have hlen : (generateFallbackEmbedding env text).length = LOCAL_EMBEDDING_DIMENSION := by
    rw [generateFallbackEmbedding, List.length_map, List.length_range]
  refine ⟨hgen, by rw [hgen, hlen], ?_⟩
  rw [hgen, hlen]
  exact eq_comm

/-- Witness for C3 (amended) at the concrete environment configured with
`vectorSize` 384, an empty cache and a concrete text. -/
theorem c3_fallback_embedding_dimension_witness :
    (generateEmbedding { envFallbackOnly with vectorSize := 384 } [] [104]).1 =
        generateFallbackEmbedding { envFallbackOnly with vectorSize := 384 } [104] ∧
    (generateEmbedding { envFallbackOnly with vectorSize := 384 } [] [104]).1.length =
        LOCAL_EMBEDDING_DIMENSION ∧
    ((generateEmbedding { envFallbackOnly with vectorSize := 384 } [] [104]).1.length =
        ({ envFallbackOnly with vectorSize := 384 } : EmbedEnv).vectorSize ↔
      ({ envFallbackOnly with vectorSize := 384 } : EmbedEnv).vectorSize =
        LOCAL_EMBEDDING_DIMENSION) :=
  c3_fallback_embedding_dimension { envFallbackOnly with vectorSize := 384 }
    [] [104] rfl rfl rfl

/-! ### C4 -/

/-- C4 counterexample: with a configured remote provider that fails (circuit
open) and a loaded local pipeline that would return `[1]`, `generateEmbedding`
returns the zero vector of the configured size — the remote error is not
absorbed by falling through to the local tier. -/
theorem c4_counterexample :
    generateEmbedding envRemoteDownLocalUp [] [7] = (zeroVec 3, []) ∧
    generateLocalEmbedding envRemoteDownLocalUp [7] = [1] ∧
    zeroVec 3 ≠ [1] := by
  refine ⟨rfl, rfl, by decide⟩

/-- C4 amended: `generateEmbedding` never rejects, and its error absorption is
as follows. With a configured remote provider, any remote error (including a
circuit-open fast-fail) short-circuits to the zero vector of the configured
`vectorSize` with the cache unchanged — the local tier is not consulted. The
local tier runs only when no remote client is configured, and a local pipeline
error is absorbed by the hash fallback. In every case the call resolves with
either the cached vector, a remote success vector, the local-tier vector, or
the zero vector of the configured size. -/
theorem c4_error_absorption
    (env : EmbedEnv) (cache : EmbedCache) (text : JsStr) :
    (∀ remote e, mapHas cache text = false → env.openai = some remote →
        remote text = .error e →
        generateEmbedding env cache text = (zeroVec env.vectorSize, cache)) ∧
    (∀ pipe, mapHas cache text = false → env.openai = none →
        env.localPipeline = some pipe → pipe text = .error () →
        (generateEmbedding env cache text).1 = generateFallbackEmbedding env text) ∧
    ((generateEmbedding env cache text).1 = mapGetD cache text ∨
     (∃ remote v, env.openai = some remote ∧ remote text = .ok v ∧
        (generateEmbedding env cache text).1 = v) ∨
     (generateEmbedding env cache text).1 = generateLocalEmbedding env text ∨
     (generateEmbedding env cache text).1 = zeroVec env.vectorSize) := by
  refine ⟨?_, ?_, ?_⟩
  · intro remote e hmiss hpr herr
    simp [generateEmbedding, hmiss, tryGenerateAndCache, hpr, herr]
  · intro pipe hmiss hpr hpipe herr
    simp [generateEmbedding, hmiss, tryGenerateAndCache, hpr,
      generateLocalEmbedding, hpipe, herr]
  · by_cases hmiss : mapHas cache text = true
    · exact .inl (by simp [generateEmbedding, hmiss])
    · rw [Bool.not_eq_true] at hmiss
      cases hpr : env.openai with
      | none =>
          refine .inr (.inr (.inl ?_))
          simp [generateEmbedding, hmiss, tryGenerateAndCache, hpr]
      | some remote =>
          cases hrem : remote text with
          | ok v =>
              refine .inr (.inl ⟨remote, v, rfl, hrem, ?_⟩)
              simp [generateEmbedding, hmiss, tryGenerateAndCache, hpr, hrem]
          | error e =>
              refine .inr (.inr (.inr ?_))
              simp [generateEmbedding, hmiss, tryGenerateAndCache, hpr, hrem]

/-- Witness for C4 (amended), applying the remote-error clause at a concrete
failing remote provider. -/
theorem c4_error_absorption_witness :
    generateEmbedding envRemoteDownLocalUp [] [8] = (zeroVec 3, []) :=
  (c4_error_absorption envRemoteDownLocalUp [] [8]).1
    (fun _ => .error .circuitOpen) .circuitOpen rfl rfl rfl

/-! ### C1 -/

/-- Double insert under a fresh key for `semantic_concepts`: the second call
overwrites every non-identity column, preserves `created_at` and refreshes
`updated_at`. -/
theorem insertSemanticConcept_twice (now1 now2 : Nat)
    (tc : List SemanticConceptRow) (c c' : SemanticConceptInsert)
    (cn ct cn' ct' : JsStr)
    (hc : c.conceptName = some cn) (hct : c.conceptType = some ct)
    (hc' : c'.conceptName = some cn') (hct' : c'.conceptType = some ct')
    (hcid : c'.id = c.id)
    (hfresh : tc.any (fun r => r.id == c.id) = false) :
    ((insertSemanticConcept now1 c tc).bind fun t1 =>
        insertSemanticConcept now2 c' t1) =
      .ok (tc ++ [scRowOf cn' ct' c' now1 now2]) := by
  have h1 : insertSemanticConcept now1 c tc = .ok (tc ++ [scRowOf cn ct c now1 now1]) := by
    simp [insertSemanticConcept, hc, hct, hfresh, scRowOf]
  have hany : (tc ++ [scRowOf cn ct c now1 now1]).any (fun r => r.id == c'.id) = true := by
    simp [List.any_append, scRowOf, hcid]
  rw [h1]
  show insertSemanticConcept now2 c' (tc ++ [scRowOf cn ct c now1 now1]) = _
  rw [insertSemanticConcept]
  simp only [hc', hct', hany, if_true]
  rw [List.map_append,
    map_ite_eq_self tc (fun r => r.id == c'.id) _ (by rw [hcid]; exact hfresh)]
  simp [scRowOf, hcid]

/-- Double insert under a fresh key for `developer_patterns`. -/
theorem insertDeveloperPattern_twice (now1 now2 : Nat)
    (tp : List DeveloperPatternRow) (p p' : DeveloperPatternInsert)
    (pt pt' : JsStr)
    (hp : p.patternType = some pt) (hp' : p'.patternType = some pt')
    (hpid : p'.patternId = p.patternId)
    (hfresh : tp.any (fun r => r.patternId == p.patternId) = false) :
    ((insertDeveloperPattern now1 p tp).bind fun t1 =>
        insertDeveloperPattern now2 p' t1) =
      .ok (tp ++ [dpRowOf pt' p' now1 now2]) := by
  have h1 : insertDeveloperPattern now1 p tp = .ok (tp ++ [dpRowOf pt p now1 now1]) := by
    simp [insertDeveloperPattern, hp, hfresh, dpRowOf]
  have hany : (tp ++ [dpRowOf pt p now1 now1]).any
      (fun r => r.patternId == p'.patternId) = true := by
    simp [List.any_append, dpRowOf, hpid]
  rw [h1]
  show insertDeveloperPattern now2 p' (tp ++ [dpRowOf pt p now1 now1]) = _
  rw [insertDeveloperPattern]
  simp only [hp', hany, if_true]
  rw [List.map_append,
    map_ite_eq_self tp (fun r => r.patternId == p'.patternId) _ (by rw [hpid]; exact hfresh)]
  simp [dpRowOf, hpid]

/-- Double insert under a fresh key for `file_intelligence`: every
non-identity column including `last_analyzed` takes the second call's values,
and `created_at` is preserved. -/
theorem insertFileIntelligence_twice (now1 now2 : Nat)
    (tf : List FileIntelligenceRow) (f f' : FileIntelligenceInsert)
    (hfid : f'.filePath = f.filePath)
    (hfresh : tf.any (fun r => r.filePath == f.filePath) = false) :
    ((insertFileIntelligence now1 f tf).bind fun t1 =>
        insertFileIntelligence now2 f' t1) =
      .ok (tf ++ [fiRowOf f' now1]) := by
  have h1 : insertFileIntelligence now1 f tf = .ok (tf ++ [fiRowOf f now1]) := by
    simp [insertFileIntelligence, hfresh, fiRowOf]
  have hany : (tf ++ [fiRowOf f now1]).any
      (fun r => r.filePath == f'.filePath) = true := by
    simp [List.any_append, fiRowOf, hfid]
  rw [h1]
  show insertFileIntelligence now2 f' (tf ++ [fiRowOf f now1]) = _
  rw [insertFileIntelligence]
  simp only [hany, if_true]
  rw [List.map_append,
    map_ite_eq_self tf (fun r => r.filePath == f'.filePath) _ (by rw [hfid]; exact hfresh)]
  simp [fiRowOf, hfid]

/-- Number of rows stored under one key after the double insert: exactly
one (semantic concepts version; the other kinds are analogous via the same
append shape). -/
theorem countP_append_fresh {α : Type} (l : List α) (x : α) (p : α → Bool)
    (hfresh : l.any p = false) (hx : p x = true) :
    (l ++ [x]).countP p = 1 := by
  rw [List.any_eq_false] at hfresh
  have h0 : l.countP p = 0 := List.countP_eq_zero.mpr fun a ha => hfresh a ha
  rw [List.countP_append, h0, List.countP_cons_of_pos p _ hx]
  simp

/-- C1 counterexample (closed): for the `AIInsight` record kind the claim
fails — the insert is a plain `INSERT`, so the second call with the same
`insightId` does not succeed but raises a duplicate-key error, leaving the
first call's row. -/
theorem c1_counterexample :
    insertAIInsight 0 aiExample [] = .ok [aiRowOf aiExample 0] ∧
    insertAIInsight 1 aiExample [aiRowOf aiExample 0] = .error .duplicateKey := by
  constructor
  · rfl
  · rfl

/-- C1 amended: for `SemanticConcept`, `DeveloperPattern` and
`FileIntelligence`, calling `insert*` twice with the same natural key succeeds
and leaves exactly one row for that key, with all non-identity fields
overwritten by the second call and the mutation timestamp refreshed
(`updated_at`/`last_seen` to the current timestamp; for `FileIntelligence`,
`last_analyzed` to the supplied value); `insertAIInsight`, however, is a plain
`INSERT` without conflict handling: the first call inserts the row and the
second call with the same `insightId` fails with a duplicate-key error,
leaving the first row in place. -/
theorem c1_upsert_per_kind (now1 now2 : Nat)
    (tc : List SemanticConceptRow) (c c' : SemanticConceptInsert)
    (cn ct cn' ct' : JsStr)
    (hc : c.conceptName = some cn) (hct : c.conceptType = some ct)
    (hc' : c'.conceptName = some cn') (hct' : c'.conceptType = some ct')
    (hcid : c'.id = c.id) (hcfresh : tc.any (fun r => r.id == c.id) = false)
    (tp : List DeveloperPatternRow) (p p' : DeveloperPatternInsert)
    (pt pt' : JsStr)
    (hp : p.patternType = some pt) (hp' : p'.patternType = some pt')
    (hpid : p'.patternId = p.patternId)
    (hpfresh : tp.any (fun r => r.patternId == p.patternId) = false)
    (tf : List FileIntelligenceRow) (f f' : FileIntelligenceInsert)
    (hfid : f'.filePath = f.filePath)
    (hffresh : tf.any (fun r => r.filePath == f.filePath) = false)
    (ta : List AIInsightRow) (a : AIInsightInsert)
    (hafresh : ta.any (fun r => r.insightId == a.insightId) = false) :
    ((insertSemanticConcept now1 c tc).bind fun t1 =>
        insertSemanticConcept now2 c' t1) =
      .ok (tc ++ [scRowOf cn' ct' c' now1 now2]) ∧
    (tc ++ [scRowOf cn' ct' c' now1 now2]).countP (fun r => r.id == c.id) = 1 ∧
    ((insertDeveloperPattern now1 p tp).bind fun t1 =>
        insertDeveloperPattern now2 p' t1) =
      .ok (tp ++ [dpRowOf pt' p' now1 now2]) ∧
    (tp ++ [dpRowOf pt' p' now1 now2]).countP
      (fun r => r.patternId == p.patternId) = 1 ∧
    ((insertFileIntelligence now1 f tf).bind fun t1 =>
        insertFileIntelligence now2 f' t1) =
      .ok (tf ++ [fiRowOf f' now1]) ∧
    (tf ++ [fiRowOf f' now1]).countP (fun r => r.filePath == f.filePath) = 1 ∧
    insertAIInsight now1 a ta = .ok (ta ++ [aiRowOf a now1]) ∧
    insertAIInsight now2 a (ta ++ [aiRowOf a now1]) = .error .duplicateKey := by
  refine ⟨insertSemanticConcept_twice now1 now2 tc c c' cn ct cn' ct' hc hct hc' hct' hcid hcfresh,
    countP_append_fresh tc _ _ hcfresh (by simp [scRowOf, hcid]),
    insertDeveloperPattern_twice now1 now2 tp p p' pt pt' hp hp' hpid hpfresh,
    countP_append_fresh tp _ _ hpfresh (by simp [dpRowOf, hpid]),
    insertFileIntelligence_twice now1 now2 tf f f' hfid hffresh,
    countP_append_fresh tf _ _ hffresh (by simp [fiRowOf, hfid]),
    ?_, ?_⟩
  · simp [insertAIInsight, hafresh, aiRowOf]
  · have hany : (ta ++ [aiRowOf a now1]).any
        (fun r => r.insightId == a.insightId) = true := by
      simp [List.any_append, aiRowOf]
    rw [insertAIInsight]
    simp [hany]

/-- Witness for C1 (amended), instantiating every record kind at concrete
inserts into empty tables. -/
theorem c1_upsert_per_kind_witness :
    ((insertSemanticConcept 0 scExampleA []).bind fun t1 =>
        insertSemanticConcept 1 scExampleB t1) =
      .ok ([] ++ [scRowOf [66] [84] scExampleB 0 1]) ∧
    (([] : List SemanticConceptRow) ++ [scRowOf [66] [84] scExampleB 0 1]).countP
      (fun r => r.id == scExampleA.id) = 1 ∧
    ((insertDeveloperPattern 0 dpExampleA []).bind fun t1 =>
        insertDeveloperPattern 1 dpExampleB t1) =
      .ok ([] ++ [dpRowOf [81] dpExampleB 0 1]) ∧
    (([] : List DeveloperPatternRow) ++ [dpRowOf [81] dpExampleB 0 1]).countP
      (fun r => r.patternId == dpExampleA.patternId) = 1 ∧
    ((insertFileIntelligence 0 fiExampleA []).bind fun t1 =>
        insertFileIntelligence 1 fiExampleB t1) =
      .ok ([] ++ [fiRowOf fiExampleB 0]) ∧
    (([] : List FileIntelligenceRow) ++ [fiRowOf fiExampleB 0]).countP
      (fun r => r.filePath == fiExampleA.filePath) = 1 ∧
    insertAIInsight 0 aiExample [] = .ok ([] ++ [aiRowOf aiExample 0]) ∧
    insertAIInsight 1 aiExample ([] ++ [aiRowOf aiExample 0]) =
      .error .duplicateKey :=
  c1_upsert_per_kind 0 1 [] scExampleA scExampleB [65] [84] [66] [84]
    rfl rfl rfl rfl rfl rfl
    [] dpExampleA dpExampleB [80] [81] rfl rfl rfl rfl
    [] fiExampleA fiExampleB rfl rfl
    [] aiExample rfl

/-! ### C5 -/

/-- A developer pattern row that is newest by both timestamps but has low
frequency. -/
def dpRowNewer : DeveloperPatternRow :=
  { patternId := [1], patternType := [80], patternContent := [123, 125]
    frequency := 1, contexts := [91, 93], examples := [91, 93]
    confidence := 0, createdAt := 10, lastSeen := 10 }

/-- An older developer pattern row with higher frequency. -/
def dpRowOlder : DeveloperPatternRow :=
  { dpRowNewer with patternId := [2], frequency := 5, createdAt := 1, lastSeen := 1 }

/-- C5 counterexample (closed): `getDeveloperPatterns` puts an older,
higher-frequency pattern before a strictly newer one — its order is by
frequency first, not newest-first. -/
theorem c5_counterexample :
    getDeveloperPatterns none [dpRowNewer, dpRowOlder] = [dpRowOlder, dpRowNewer] ∧
    dpRowOlder.createdAt < dpRowNewer.createdAt ∧
    dpRowOlder.lastSeen < dpRowNewer.lastSeen := by decide

/-- C5 amended: `getSemanticConcepts` and `getAIInsights` return newest-first
by `created_at` (with or without their optional filter); `getDeveloperPatterns`
instead returns its records ordered by `frequency` descending first, breaking
ties by `last_seen` descending. -/
theorem c5_read_order (fp pt it : Option JsStr)
    (tsc : List SemanticConceptRow) (tdp : List DeveloperPatternRow)
    (tai : List AIInsightRow) :
    List.Pairwise (fun a b : SemanticConceptRow => b.createdAt ≤ a.createdAt)
      (getSemanticConcepts fp tsc) ∧
    List.Pairwise (fun a b : AIInsightRow => b.createdAt ≤ a.createdAt)
      (getAIInsights it tai) ∧
    List.Pairwise (fun a b : DeveloperPatternRow =>
        b.frequency < a.frequency ∨
          (a.frequency = b.frequency ∧ b.lastSeen ≤ a.lastSeen))
      (getDeveloperPatterns pt tdp) := by
  refine ⟨?_, ?_, ?_⟩
  · haveI : IsTotal SemanticConceptRow (fun a b => b.createdAt ≤ a.createdAt) :=
      ⟨fun a b => Nat.le_total _ _⟩
    haveI : IsTrans SemanticConceptRow (fun a b => b.createdAt ≤ a.createdAt) :=
      ⟨fun _ _ _ hab hbc => le_trans hbc hab⟩
    unfold getSemanticConcepts
    exact List.sorted_insertionSort _ _
  · haveI : IsTotal AIInsightRow (fun a b => b.createdAt ≤ a.createdAt) :=
      ⟨fun a b => Nat.le_total _ _⟩
    haveI : IsTrans AIInsightRow (fun a b => b.createdAt ≤ a.createdAt) :=
      ⟨fun _ _ _ hab hbc => le_trans hbc hab⟩
    unfold getAIInsights
    exact List.sorted_insertionSort _ _
  · haveI : IsTotal DeveloperPatternRow (fun a b =>
        b.frequency < a.frequency ∨
          (a.frequency = b.frequency ∧ b.lastSeen ≤ a.lastSeen)) :=
      ⟨fun a b => by omega⟩
    haveI : IsTrans DeveloperPatternRow (fun a b =>
        b.frequency < a.frequency ∨
          (a.frequency = b.frequency ∧ b.lastSeen ≤ a.lastSeen)) :=
      ⟨fun a b c hab hbc => by omega⟩
    unfold getDeveloperPatterns
    exact List.sorted_insertionSort _ _

/-! ### C9 -/

/-- C9: with the store initialized and the supplied options non-falsy (an
absent or nonzero limit and threshold — the zero edge is claim C10),
`searchByEmbedding` succeeds and returns only matches whose similarity is at
or above the supplied threshold (0.7 when absent), ordered by similarity
descending, with at most the supplied limit (10 when absent) entries, the
similarity of each being the backend's score unchanged. The backend is assumed
to honor the search wire contract. -/
theorem c9_search_threshold_order_limit
    (backend : SearchRequest → List QdrantHit)
    (hB : SearchBackendContract backend)
    (embedding : Vec) (options : SearchOptions)
    (hl : ∀ n, options.limit = some n → n ≠ 0)
    (ht : ∀ q, options.threshold = some q → q ≠ 0) :
    ∃ results, searchByEmbedding backend true embedding options = .ok results ∧
      (∀ r ∈ results, options.threshold.getD (7 / 10) ≤ r.similarity) ∧
      List.Pairwise (fun a b : SemanticSearchResult =>
        b.similarity ≤ a.similarity) results ∧
      results.length ≤ options.limit.getD 10 ∧
      results.map (fun r => r.similarity) =
        (backend (searchRequestOf embedding options)).map (fun h => h.score) := by
  have hlimit : jsOrNat options.limit 10 = options.limit.getD 10 := by
    cases hop : options.limit with
    | none => rfl
    | some n =>
        have := hl n hop
        simp [jsOrNat, this]
  have hthresh : jsOrRat options.threshold (7 / 10) = options.threshold.getD (7 / 10) := by
    cases hop : options.threshold with
    | none => rfl
    | some q =>
        have := ht q hop
        simp [jsOrRat, this]
  obtain ⟨hscore, hsorted, hlen⟩ := hB (searchRequestOf embedding options)
  refine ⟨_, rfl, ?_, ?_, ?_, ?_⟩
  · intro r hr
    rw [List.mem_map] at hr
    obtain ⟨h, hh, hrfl⟩ := hr
    have := hscore h hh
    rw [← hrfl]
    simpa [searchRequestOf, hthresh] using this
  · rw [List.pairwise_map]
    exact hsorted
  · rw [List.length_map]
    calc (backend (searchRequestOf embedding options)).length
        ≤ (searchRequestOf embedding options).limit := hlen
      _ = options.limit.getD 10 := by rw [searchRequestOf]; exact hlimit
  · rw [List.map_map]
    rfl

/-- Witness for C9 at a concrete empty-response backend (which trivially
satisfies the wire contract) with default options. -/
theorem c9_search_threshold_order_limit_witness :
    ∃ results, searchByEmbedding (fun _ => []) true [1] {} = .ok results ∧
      (∀ r ∈ results, (({} : SearchOptions)).threshold.getD (7 / 10) ≤ r.similarity) ∧
      List.Pairwise (fun a b : SemanticSearchResult =>
        b.similarity ≤ a.similarity) results ∧
      results.length ≤ (({} : SearchOptions)).limit.getD 10 ∧
      results.map (fun r => r.similarity) =
        ((fun _ => ([] : List QdrantHit)) (searchRequestOf [1] {})).map
          (fun h => h.score) :=
  c9_search_threshold_order_limit (fun _ => [])
    (fun _ => ⟨fun _ hx => absurd hx (List.not_mem_nil _), List.Pairwise.nil, by simp⟩)
    [1] {} (fun _ hx => by cases hx) (fun _ hx => by cases hx)

/-! ### C2 -/

/-- A semantic concept insert whose `concept_name` is null — it violates the
schema's `NOT NULL` constraint and makes its `INSERT` statement fail. -/
def scExampleBad : SemanticConceptInsert :=
  { scExampleA with id := [9], conceptName := none }

/-- A developer pattern insert whose `pattern_type` is null. -/
def dpExampleBad : DeveloperPatternInsert :=
  { dpExampleA with patternId := [8], patternType := none }

/-- The freshly migrated, empty relational store. -/
def pgEmpty : PgState :=
  { committed := { semanticConcepts := [], developerPatterns := []
                   fileIntelligence := [], aiInsights := [] }
    clientTxn := none }

/-- C2 evaluated at the failing input: a two-item batch whose second item is
invalid reports the error, yet the first item's row stays committed — the
item inserts ran through `pool.query` on autocommit connections outside the
`BEGIN`/`ROLLBACK` transaction of the dedicated client, so the rollback undid
nothing and the table is not left unchanged (for both batch functions). -/
theorem c2_batch_rollback_ineffective :
    (insertSemanticConceptsBatch 0 [scExampleA, scExampleBad] pgEmpty).1 =
      some .notNullViolation ∧
    (insertSemanticConceptsBatch 0 [scExampleA, scExampleBad] pgEmpty).2.committed.semanticConcepts =
      [scRowOf [65] [84] scExampleA 0 0] ∧
    (insertDeveloperPatternsBatch 0 [dpExampleA, dpExampleBad] pgEmpty).1 =
      some .notNullViolation ∧
    (insertDeveloperPatternsBatch 0 [dpExampleA, dpExampleBad] pgEmpty).2.committed.developerPatterns =
      [dpRowOf [80] dpExampleA 0 0] ∧
    pgEmpty.committed.semanticConcepts = [] ∧
    pgEmpty.committed.developerPatterns = [] := by decide

/-! ### C7 -/

/-- Every chunk produced by the batching loop has at most 100 points. -/
theorem chunks100_length_le :
    ∀ l : List QdrantPoint, ∀ b ∈ chunks100 l, b.length ≤ 100
  | [] => by simp [chunks100]
  | p :: ps => by
      rw [chunks100]
      intro b hb
      rcases List.mem_cons.mp hb with h | h
      · subst h
        rw [List.length_take]
        omega
      · exact chunks100_length_le ((p :: ps).drop 100) b h
termination_by l => l.length
decreasing_by simp [List.length_drop]; omega

/-- The chunks concatenate back to the full point list, in order. -/
theorem chunks100_flatten : ∀ l : List QdrantPoint, (chunks100 l).flatten = l
  | [] => by simp [chunks100]
  | p :: ps => by
      rw [chunks100, List.flatten_cons, chunks100_flatten ((p :: ps).drop 100)]
      exact List.take_append_drop 100 (p :: ps)
termination_by l => l.length
decreasing_by simp [List.length_drop]; omega

/-- When the backend accepts every request, the sequential chunk dispatch
sends all chunks in order and persists them all. -/
theorem sendChunks_all_ok (ok : Nat → Bool) :
    ∀ (bs : List (List QdrantPoint)) (s : QdrantState),
      (∀ i, i < bs.length → ok (s.requestLog.length + i) = true) →
      sendChunks ok bs s =
        (none, { points := bs.foldl upsertPoints s.points
                 requestLog := s.requestLog ++ bs })
  | [], s, _ => by simp [sendChunks]
  | b :: bs, s, h => by
      have hb : ok s.requestLog.length = true := by
        have h0 := h 0 (by simp)
        simpa using h0
      rw [sendChunks, putPointsRequest]
      simp only [hb, if_true]
      rw [sendChunks_all_ok ok bs _ (by
        intro i hi
        have := h (i + 1) (by simpa using Nat.succ_lt_succ hi)
        simpa [List.length_append, Nat.add_assoc, Nat.add_comm 1 i] using this)]
      simp [List.append_assoc]

/-- When the backend rejects request `k` (after accepting the first `k`),
the dispatch stops there: exactly the first `k + 1` requests were made, the
first `k` chunks stay persisted, and the error propagates. -/
theorem sendChunks_fail_at (ok : Nat → Bool) :
    ∀ (bs : List (List QdrantPoint)) (s : QdrantState) (k : Nat),
      k < bs.length →
      (∀ i, i < k → ok (s.requestLog.length + i) = true) →
      ok (s.requestLog.length + k) = false →
      sendChunks ok bs s =
        (some .httpError,
         { points := (bs.take k).foldl upsertPoints s.points
           requestLog := s.requestLog ++ bs.take (k + 1) })
  | [], _, k, hk, _, _ => absurd hk (by simp)
  | b :: bs, s, 0, _, _, hfail => by
      rw [sendChunks, putPointsRequest]
      simp only [Nat.add_zero] at hfail
      simp [hfail]
  | b :: bs, s, k + 1, hk, hpre, hfail => by
      have hb : ok s.requestLog.length = true := by
        have h0 := hpre 0 (by omega)
        simpa using h0
      rw [sendChunks, putPointsRequest]
      simp only [hb, if_true]
      rw [sendChunks_fail_at ok bs _ k (by simpa using Nat.lt_of_succ_lt_succ hk)
        (by
          intro i hi
          have := hpre (i + 1) (by omega)
          simpa [List.length_append, Nat.add_assoc, Nat.add_comm 1 i] using this)
        (by simpa [List.length_append, Nat.add_assoc, Nat.add_comm 1 k] using hfail)]
      simp [List.append_assoc]

/-- C7: `storeMultipleEmbeddings` (initialized, equal-length inputs, fresh
backend session) sends its prepared points in consecutive chunks of at most
100 that concatenate to the full list. If the backend accepts every chunk
request, all chunks are sent and persisted in order and the ids are returned.
If chunk `k` is the first to fail, exactly the requests for chunks
`0..k` were made (nothing afterwards is attempted), the error propagates, and
the chunks before `k` remain persisted — there is no cross-chunk rollback. -/
theorem c7_store_chunked (env : EmbedEnv) (ok : Nat → Bool) (now : Nat)
    (codeChunks : List JsStr) (metadataList : List CodeMetadata)
    (cache : EmbedCache) (s0 : QdrantState)
    (points : List QdrantPoint) (ids : List JsStr) (cache' : EmbedCache)
    (hbuild : buildPoints env now codeChunks metadataList cache = (points, ids, cache'))
    (hlen : codeChunks.length = metadataList.length)
    (hlog : s0.requestLog = []) :
    (∀ b ∈ chunks100 points, b.length ≤ 100) ∧
    (chunks100 points).flatten = points ∧
    ((∀ i, i < (chunks100 points).length → ok i = true) →
      storeMultipleEmbeddings env ok true now codeChunks metadataList cache s0 =
        (.ok ids, cache',
         { points := (chunks100 points).foldl upsertPoints s0.points
           requestLog := chunks100 points })) ∧
    (∀ k, k < (chunks100 points).length → (∀ i, i < k → ok i = true) →
      ok k = false →
      storeMultipleEmbeddings env ok true now codeChunks metadataList cache s0 =
        (.error .httpError, cache',
         { points := ((chunks100 points).take k).foldl upsertPoints s0.points
           requestLog := (chunks100 points).take (k + 1) })) := by
  have hstore : storeMultipleEmbeddings env ok true now codeChunks metadataList cache s0 =
      (match sendChunks ok (chunks100 points) s0 with
       | (none, s') => (.ok ids, cache', s')
       | (some e, s') => (.error e, cache', s')) := by
    rw [storeMultipleEmbeddings]
    simp [hlen, hbuild]
  refine ⟨chunks100_length_le points, chunks100_flatten points, ?_, ?_⟩
  · intro hok
    rw [hstore, sendChunks_all_ok ok (chunks100 points) s0 (by
      intro i hi
      rw [hlog]
      simpa using hok i hi)]
    rw [hlog]
    simp
  · intro k hk hpre hfail
    rw [hstore, sendChunks_fail_at ok (chunks100 points) s0 k hk
      (by
        intro i hi
        rw [hlog]
        simpa using hpre i hi)
      (by rw [hlog]; simpa using hfail)]
    rw [hlog]
    simp

/-- The point prepared for the C7 witness inputs. -/
def qptExample : QdrantPoint :=
  { id := [11], vector := [1]
    payload := { content := [5], metadata := mdExample, created := 0, updated := 0 } }

/-- Witness for C7 at one concrete code chunk against a backend that rejects
the first request. -/
theorem c7_store_chunked_witness :
    (∀ b ∈ chunks100 [qptExample], b.length ≤ 100) ∧
    (chunks100 [qptExample]).flatten = [qptExample] ∧
    ((∀ i, i < (chunks100 [qptExample]).length → (fun _ => false) i = true) →
      storeMultipleEmbeddings envRemoteOk (fun _ => false) true 0
          [[5]] [mdExample] [] qdrantEmpty =
        (.ok [[11]], [([5], [1])],
         { points := (chunks100 [qptExample]).foldl upsertPoints qdrantEmpty.points
           requestLog := chunks100 [qptExample] })) ∧
    (∀ k, k < (chunks100 [qptExample]).length →
      (∀ i, i < k → (fun _ => false) i = true) → (fun _ => false) k = false →
      storeMultipleEmbeddings envRemoteOk (fun _ => false) true 0
          [[5]] [mdExample] [] qdrantEmpty =
        (.error .httpError, [([5], [1])],
         { points := ((chunks100 [qptExample]).take k).foldl upsertPoints qdrantEmpty.points
           requestLog := (chunks100 [qptExample]).take (k + 1) })) :=
  c7_store_chunked envRemoteOk (fun _ => false) 0 [[5]] [mdExample] []
    qdrantEmpty [qptExample] [[11]] [([5], [1])] (by decide) (by decide) rfl

/-! ### C6 -/

/-- Folding `generateEmbedding` over pairwise-distinct fresh texts with an
always-succeeding remote tier appends one cache entry per text, as long as
capacity is not yet reached. -/
theorem generateEmbedding_fold_fresh (env : EmbedEnv)
    (remote : JsStr → Except RemoteError Vec) (v : Vec)
    (hre : env.openai = some remote) (hrv : ∀ k, remote k = .ok v) :
    ∀ (ks : List JsStr) (cache : EmbedCache),
      (∀ k ∈ ks, mapHas cache k = false) → ks.Nodup →
      cache.length + ks.length ≤ EMBEDDING_CACHE_SIZE →
      List.foldl (fun c k => (generateEmbedding env c k).2) cache ks =
        cache ++ ks.map (fun k => (k, v))
  | [], cache, _, _, _ => by simp
  | k :: ks, cache, h, hnd, hlen => by
      have hfreshk : mapHas cache k = false := h k (List.mem_cons_self k ks)
      have hnotfull : ¬ EMBEDDING_CACHE_SIZE ≤ cache.length := by
        rw [EMBEDDING_CACHE_SIZE] at hlen ⊢
        simp only [List.length_cons] at hlen
        omega
      have hput : cachePut cache k v = cache ++ [(k, v)] := by
        rw [cachePut]
        simp only [hnotfull, if_false]
        rw [mapSet]
        simp [hfreshk]
      have hgen : generateEmbedding env cache k = (v, cache ++ [(k, v)]) := by
        rw [generateEmbedding, tryGenerateAndCache, hre]
        simp [hfreshk, hrv k, hput]
      rw [List.foldl_cons]
      simp only [hgen]
      rw [generateEmbedding_fold_fresh env remote v hre hrv ks (cache ++ [(k, v)])
        (by
          intro k' hk'
          have h1 : cache.any (fun p => p.1 == k') = false :=
            h k' (List.mem_cons_of_mem k hk')
          have h2 : (k == k') = false :=
            beq_eq_false_iff_ne.mpr fun he => (List.nodup_cons.mp hnd).1 (he ▸ hk')
          rw [mapHas, List.any_append, h1]
          simp [h2])
        (List.nodup_cons.mp hnd).2
        (by
          rw [List.length_append]
          simp only [List.length_cons] at hlen
          simp only [List.length_singleton]
          omega)]
      simp

/-- At capacity with the first-inserted key being the empty string, the
eviction guard `if (firstKey)` sees a falsy value and deletes nothing, so a
fresh key is appended and the cache exceeds its capacity. -/
theorem cachePut_empty_first_key_grows (m : EmbedCache) (k : JsStr) (v : Vec)
    (hfull : EMBEDDING_CACHE_SIZE ≤ m.length)
    (hhead : firstKey m = some [])
    (hfresh : mapHas m k = false) :
    cachePut m k v = m ++ [(k, v)] := by
  rw [cachePut]
  simp only [hfull, if_true, hhead, jsTruthyStr]
  rw [mapSet]
  simp [hfresh]

/-- The 1000 distinct texts of the C6 scenario, the empty string first. -/
def c6Keys : List JsStr :=
  [] :: (List.range (EMBEDDING_CACHE_SIZE - 1)).map (fun n => [n + 1])

/-- C6 evaluated at the failing input: calling `generateEmbedding` (remote
tier configured and healthy) on the empty string first, then on 999 further
distinct texts, fills the cache to its capacity of 1000 with the empty string
as the first-inserted key; the next call with a fresh text evicts nothing —
`if (firstKey)` is falsy for the empty-string key — and leaves the cache with
1001 entries, exceeding the claimed bound. -/
theorem c6_cache_exceeds_capacity :
    c6Keys.length = EMBEDDING_CACHE_SIZE ∧
    c6Keys.Nodup ∧
    (List.foldl (fun c k => (generateEmbedding envRemoteOk c k).2) []
        (c6Keys ++ [[EMBEDDING_CACHE_SIZE]])).length =
      EMBEDDING_CACHE_SIZE + 1 := by
  have hkeylen : c6Keys.length = EMBEDDING_CACHE_SIZE := by
    rw [c6Keys, List.length_cons, List.length_map, List.length_range,
      EMBEDDING_CACHE_SIZE]
  have hnd : c6Keys.Nodup := by
    rw [c6Keys, List.nodup_cons]
    constructor
    · intro hmem
      rw [List.mem_map] at hmem
      obtain ⟨n, _, hn⟩ := hmem
      exact List.cons_ne_nil _ _ hn
    · exact (List.nodup_range _).map fun a b hab => by
        simpa using hab
  refine ⟨hkeylen, hnd, ?_⟩
  rw [List.foldl_append]
  rw [generateEmbedding_fold_fresh envRemoteOk (fun _ => .ok [1]) [1] rfl
    (fun _ => rfl) c6Keys [] (by intro k _; rfl) hnd (by rw [hkeylen]; simp)]
  have hfreshlast : mapHas (([] : EmbedCache) ++ c6Keys.map (fun k => (k, [1])))
      [EMBEDDING_CACHE_SIZE] = false := by
    rw [mapHas, List.any_eq_false]
    intro p hp
    simp only [List.nil_append, List.mem_map] at hp
    obtain ⟨k, hk, hkp⟩ := hp
    rw [c6Keys, List.mem_cons, List.mem_map] at hk
    rcases hk with hk | ⟨n, hn, hkn⟩
    · subst hk
      rw [← hkp]
      simp [EMBEDDING_CACHE_SIZE]
    · rw [← hkp, ← hkn]
      rw [List.mem_range] at hn
      rw [EMBEDDING_CACHE_SIZE] at hn ⊢
      show ¬ ([n + 1] == [1000]) = true
      rw [beq_iff_eq]
      intro he
      have hne := (List.cons_eq_cons.mp he).1
      omega
  have hfirst : firstKey (([] : EmbedCache) ++ c6Keys.map (fun k => (k, [1]))) =
      some [] := by
    rw [c6Keys]
    rfl
  have hfull : EMBEDDING_CACHE_SIZE ≤
      (([] : EmbedCache) ++ c6Keys.map (fun k => (k, [1]))).length := by
    rw [List.nil_append, List.length_map, hkeylen]
  have hgen : generateEmbedding envRemoteOk
      (([] : EmbedCache) ++ c6Keys.map (fun k => (k, [1]))) [EMBEDDING_CACHE_SIZE] =
      ([1], (([] : EmbedCache) ++ c6Keys.map (fun k => (k, [1]))) ++
        [([EMBEDDING_CACHE_SIZE], [1])]) := by
    rw [generateEmbedding, tryGenerateAndCache]
    simp only [hfreshlast, Bool.false_eq_true, if_false, envRemoteOk]
    rw [cachePut_empty_first_key_grows _ _ _ hfull hfirst hfreshlast]
  rw [List.foldl_cons]
  simp only [hgen]
  rw [List.foldl_nil, List.length_append, List.length_append, List.length_map,
    hkeylen]
  rfl

end InMemoria
